import Mathlib

/-!
# Verification of the lab13 solar-system renderer core

Shallow embedding of `lab13.cpp`: the vector/matrix algebra (`Vec3`, `Mat4`),
the OBJ mesh loader (`LoadOBJ` and its helpers), the per-frame planet update
and model-matrix construction, and the camera pitch update/clamp from the main
loop.  C++ `float` arithmetic is idealized: the algebra and simulator are
modelled over the reals (they use `sqrt`, `cos`, `sin`); the loader and the
pitch clamp, which only perform field operations and comparisons, are modelled
over the rationals so that concrete runs are decidable.
-/

namespace Lab13

/-! ## Algebra module (`Vec3`, `Mat4` from the source) -/

noncomputable section Algebra

/-- Source struct `Vec3` with three float components. -/
structure Vec3 where
  x : ℝ
  y : ℝ
  z : ℝ

instance : Add Vec3 := ⟨fun a b => ⟨a.x + b.x, a.y + b.y, a.z + b.z⟩⟩

instance : Sub Vec3 := ⟨fun a b => ⟨a.x - b.x, a.y - b.y, a.z - b.z⟩⟩

/-- Source scalar product `operator*(const Vec3& a, float s)`. -/
instance : HMul Vec3 ℝ Vec3 := ⟨fun a s => ⟨a.x * s, a.y * s, a.z * s⟩⟩

/-- Source function `Dot(a, b)`. -/
def Dot (a b : Vec3) : ℝ := a.x * b.x + a.y * b.y + a.z * b.z

/-- Source function `Cross(a, b)`. -/
def Cross (a b : Vec3) : Vec3 :=
  ⟨a.y * b.z - a.z * b.y, a.z * b.x - a.x * b.z, a.x * b.y - a.y * b.x⟩

/-- Source function `Length(v)`, the square root of `Dot(v, v)`. -/
def Length (v : Vec3) : ℝ := Real.sqrt (Dot v v)

/-- Source function `Normalize(v)`: returns `v` unchanged when
`Length v ≤ 1e-6`, else `v * (1/len)`. -/
def Normalize (v : Vec3) : Vec3 :=
  if Length v ≤ 1 / 1000000 then v else v * (1 / Length v)

/-- The source stores a 4×4 matrix as a flat column-major array
(`m[col*4 + row]`).  We model it as the mathematical matrix `M` with
`M row col = m[col*4 + row]`; under this reading the source's
`operator*(Mat4, Mat4)` (`r.m[col*4+row] = Σ k, a.m[k*4+row] * b.m[col*4+k]`)
is exactly Mathlib's matrix product, and the shader's `M * vec4` is
`Matrix.mulVec`. -/
abbrev Mat4 := Matrix (Fin 4) (Fin 4) ℝ

namespace Mat4

/-- Constructor `Mat4::Identity()`: diagonal entries `m[0], m[5], m[10], m[15]` set to 1. -/
def Identity : Mat4 := !![1, 0, 0, 0; 0, 1, 0, 0; 0, 0, 1, 0; 0, 0, 0, 1]

/-- Constructor `Mat4::Translation(x,y,z)`: identity with `m[12]=x, m[13]=y, m[14]=z`
(column 3, rows 0..2). -/
def Translation (x y z : ℝ) : Mat4 :=
  !![1, 0, 0, x; 0, 1, 0, y; 0, 0, 1, z; 0, 0, 0, 1]

/-- Constructor `Mat4::Scale(x,y,z)`: `m[0]=x, m[5]=y, m[10]=z, m[15]=1`. -/
def Scale (x y z : ℝ) : Mat4 :=
  !![x, 0, 0, 0; 0, y, 0, 0; 0, 0, z, 0; 0, 0, 0, 1]

/-- Constructor `Mat4::RotationY(angleRad)`: identity with `m[0]=c, m[2]=s, m[8]=-s,
m[10]=c` (so row 0 = `(c, 0, -s, 0)`, row 2 = `(s, 0, c, 0)`). -/
def RotationY (angleRad : ℝ) : Mat4 :=
  !![Real.cos angleRad, 0, -Real.sin angleRad, 0;
     0, 1, 0, 0;
     Real.sin angleRad, 0, Real.cos angleRad, 0;
     0, 0, 0, 1]

/-- Constructor `Mat4::LookAt(eye, center, up)`: orthonormal-ish basis `f, s, u`, basis
rows, and translation entries `m[12] = -Dot(s,eye)`, `m[13] = -Dot(u,eye)`,
`m[14] = Dot(f,eye)` in column 3. -/
def LookAt (eye center up : Vec3) : Mat4 :=
  let f := Normalize (center - eye)
  let s := Normalize (Cross f up)
  let u := Cross s f
  !![s.x, s.y, s.z, -(Dot s eye);
     u.x, u.y, u.z, -(Dot u eye);
     -f.x, -f.y, -f.z, Dot f eye;
     0, 0, 0, 1]

end Mat4

/-! ## Instance simulator (`struct Planet` and the main-loop update/draw) -/

/-- Source struct `Planet` from `main`. -/
structure Planet where
  orbitRadius : ℝ
  orbitSpeed : ℝ
  selfSpeed : ℝ
  scale : ℝ
  orbitAngle : ℝ
  selfAngle : ℝ

/-- The per-frame planet update:
`p.orbitAngle += p.orbitSpeed * dt; p.selfAngle += p.selfSpeed * dt;`. -/
def updatePlanet (p : Planet) (dt : ℝ) : Planet :=
  { p with
    orbitAngle := p.orbitAngle + p.orbitSpeed * dt
    selfAngle := p.selfAngle + p.selfSpeed * dt }

/-- The update loop `for (auto& p : planets) { ... }`, which mutates each
planet in place and in order. -/
def advancePlanets (ps : List Planet) (dt : ℝ) : List Planet :=
  ps.map (fun p => updatePlanet p dt)

/-- The model matrix the render loop builds for a planet: `x`/`z` from the
orbit angle when `orbitRadius > 0` (`0` otherwise), then
`Translation(x,0,z) * RotationY(selfAngle) * Scale(scale,scale,scale)`. -/
def modelMatrix (p : Planet) : Mat4 :=
  let x := if p.orbitRadius > 0 then Real.cos p.orbitAngle * p.orbitRadius else 0
  let z := if p.orbitRadius > 0 then Real.sin p.orbitAngle * p.orbitRadius else 0
  Mat4.Translation x 0 z * Mat4.RotationY p.selfAngle *
    Mat4.Scale p.scale p.scale p.scale

/-- The world position the spec derives for a body: origin when the orbital
radius is 0, `(cos θ · r, 0, sin θ · r)` otherwise.  Written from the spec's
words, to be compared with `modelMatrix`. -/
def specPosition (p : Planet) : ℝ × ℝ × ℝ :=
  if p.orbitRadius = 0 then (0, 0, 0)
  else (Real.cos p.orbitAngle * p.orbitRadius, 0,
        Real.sin p.orbitAngle * p.orbitRadius)

/-- The per-frame observable trace of one planet fed a sequence of `dt`
values: after each update, its orbit angle, self angle and model matrix. -/
def runTrace (p : Planet) : List ℝ → List (ℝ × ℝ × Mat4)
  | [] => []
  | dt :: dts =>
    let q := updatePlanet p dt
    (q.orbitAngle, q.selfAngle, modelMatrix q) :: runTrace q dts

end Algebra

/-! ## Frame driver: camera pitch update and clamp

The main loop's pitch handling (arrow keys, then the clamp):
`pitch += rotationSpeed * dt * 0.5` while Up is held,
`pitch -= rotationSpeed * dt * 0.5` while Down is held,
then `if (pitch > 89) pitch = 89; if (pitch < -89) pitch = -89;`.
Only field operations and comparisons occur, so this piece is modelled
over `ℚ`. -/

/-- Source constant `rotationSpeed = 50.0f` (degrees per second). -/
def rotationSpeed : ℚ := 50

/-- One frame's pitch update: the two key-conditional increments followed by
the two-sided clamp, exactly in source order. -/
def pitchStep (pitch : ℚ) (upKey downKey : Bool) (dt : ℚ) : ℚ :=
  let p1 := if upKey then pitch + rotationSpeed * dt * (1 / 2) else pitch
  let p2 := if downKey then p1 - rotationSpeed * dt * (1 / 2) else p1
  let p3 := if p2 > 89 then 89 else p2
  if p3 < -89 then -89 else p3

/-- Folding `pitchStep` over a sequence of frames; each list entry is
(Up held, Down held, dt). -/
def pitchRun (p0 : ℚ) (frames : List (Bool × Bool × ℚ)) : ℚ :=
  frames.foldl (fun p f => pitchStep p f.1 f.2.1 f.2.2) p0

/-! ## Mesh loader (`LoadOBJ`)

The loader reads a line-oriented text file; we model the file as the list of
its lines (and a whole file that cannot be opened as `none`).  `istringstream`
token extraction is whitespace splitting.  Numeric text is parsed into `ℚ`:
`std::stoi` semantics for face indices (optional sign, at least one leading
digit, trailing characters ignored, exception — modelled as `Option.none` —
when no digit is found), and plain decimal numerals for `v`/`vt` records
(the spec leaves malformed numeric tokens undefined). -/

/-- Value of a digit string, most significant first. -/
def digitsToNat (ds : List Char) : ℕ :=
  ds.foldl (fun n c => 10 * n + (c.toNat - '0'.toNat)) 0

/-- Unsigned part of `std::stoi` on a whitespace-free token: at least one
leading digit, trailing non-digits ignored. -/
def stoiNat (cs : List Char) : Option ℕ :=
  let ds := cs.takeWhile Char.isDigit
  if ds.isEmpty then none else some (digitsToNat ds)

/-- Model of `std::stoi` on a whitespace-free token; `none` models the
`std::invalid_argument` exception (which the loader does not catch). -/
def stoiChars : List Char → Option ℤ
  | '-' :: rest => (stoiNat rest).map (fun n => -(n : ℤ))
  | '+' :: rest => (stoiNat rest).map (fun n => (n : ℤ))
  | rest => (stoiNat rest).map (fun n => (n : ℤ))

/-- Unsigned decimal numeral `digits[.digits]` as a rational. -/
def parseUFloat (cs : List Char) : Option ℚ :=
  let intDs := cs.takeWhile Char.isDigit
  if intDs.isEmpty then none
  else
    match cs.drop intDs.length with
    | [] => some (digitsToNat intDs : ℚ)
    | '.' :: fr =>
      if fr.all Char.isDigit then
        some ((digitsToNat intDs : ℚ) + (digitsToNat fr : ℚ) / 10 ^ fr.length)
      else none
    | _ => none

/-- Stream extraction of one `float` from a whole token (the well-formed
decimal numerals the program's inputs use). -/
def parseFloatChars : List Char → Option ℚ
  | '-' :: rest => (parseUFloat rest).map (fun q => -q)
  | '+' :: rest => parseUFloat rest
  | rest => parseUFloat rest

/-- One `iss >> x` step on a `float`: a failed or missing extraction
value-initializes the target to 0 and puts the stream in a failed state,
after which further extractions also yield 0. -/
def extractFloat : List String × Bool → ℚ × (List String × Bool)
  | ([], _) => (0, ([], false))
  | (t :: ts, ok) =>
    if ok then
      match parseFloatChars t.toList with
      | some q => (q, (ts, true))
      | none => (0, (ts, false))
    else (0, (t :: ts, false))

/-- Extraction `iss >> x >> y >> z` on the tokens after a `v` record head. -/
def readFloat3 (ts : List String) : ℚ × ℚ × ℚ :=
  let s0 := extractFloat (ts, true)
  let s1 := extractFloat s0.2
  let s2 := extractFloat s1.2
  (s0.1, s1.1, s2.1)

/-- Extraction `iss >> u >> v` on the tokens after a `vt` record head. -/
def readFloat2 (ts : List String) : ℚ × ℚ :=
  let s0 := extractFloat (ts, true)
  let s1 := extractFloat s0.2
  (s0.1, s1.1)

/-- Lambda `parseIndex` from `LoadOBJ`: splits a face token at its first two `/`,
reads the position index (0 when the part before the slash is empty) and the
texture index (0 when missing or empty); `none` models an uncaught `stoi`
exception. -/
def parseIndex (s : String) : Option (ℤ × ℤ) :=
  let cs := s.toList
  let pre := cs.takeWhile (fun c => decide (c ≠ '/'))
  if pre.length = cs.length then
    (stoiChars cs).map (fun vi => (vi, 0))
  else
    let post := cs.drop (pre.length + 1)
    let vtStr := post.takeWhile (fun c => decide (c ≠ '/'))
    match (if pre.isEmpty then some 0 else stoiChars pre),
        (if vtStr.isEmpty then some 0 else stoiChars vtStr) with
    | some vi, some ti => some (vi, ti)
    | _, _ => none

/-- Lambda `pushVertex` from `LoadOBJ`: skips the reference when the position index
is out of range, falls back to UV `(0,0)` when the texture index is out of
range, otherwise appends the five floats
`p.x, p.y, p.z, t.x, t.y` to `outVertices`. -/
def pushVertex (positions : List (ℚ × ℚ × ℚ)) (texcoords : List (ℚ × ℚ))
    (out : List ℚ) (v : ℤ × ℤ) : List ℚ :=
  if v.1 ≤ 0 ∨ (positions.length : ℤ) < v.1 then out
  else
    let p := positions.getD (v.1.toNat - 1) (0, 0, 0)
    let t :=
      if 0 < v.2 ∧ v.2 ≤ (texcoords.length : ℤ) then
        texcoords.getD (v.2.toNat - 1) (0, 0)
      else (0, 0)
    out ++ [p.1, p.2.1, p.2.2, t.1, t.2]

/-- The fan-triangulation loop `for (i = 1; i + 1 < tokens.size(); ++i)`:
at each step the previous token and the current one are parsed and the three
vertices `v0`, `tokens[i]`, `tokens[i+1]` are pushed. -/
def fanLoop (positions : List (ℚ × ℚ × ℚ)) (texcoords : List (ℚ × ℚ))
    (v0 : ℤ × ℤ) (prev : String) (out : List ℚ) :
    List String → Option (List ℚ)
  | [] => some out
  | t :: ts =>
    match parseIndex prev, parseIndex t with
    | some p1, some p2 =>
      fanLoop positions texcoords v0 t
        (pushVertex positions texcoords
          (pushVertex positions texcoords
            (pushVertex positions texcoords out v0) p1) p2) ts
    | _, _ => none

/-- The `f` branch of `LoadOBJ`: faces with fewer than 3 tokens are skipped,
otherwise `tokens[0]` is parsed as the fan centre and the loop runs over the
remaining adjacent pairs. -/
def processFace (positions : List (ℚ × ℚ × ℚ)) (texcoords : List (ℚ × ℚ))
    (out : List ℚ) (tokens : List String) : Option (List ℚ) :=
  match tokens with
  | t0 :: t1 :: t2 :: rest =>
    match parseIndex t0 with
    | some v0 => fanLoop positions texcoords v0 t1 out (t2 :: rest)
    | none => none
  | _ => some out

/-- The loader's accumulated state: declared positions, declared texture
coordinates, and the interleaved output stream. -/
structure ObjState where
  positions : List (ℚ × ℚ × ℚ)
  texcoords : List (ℚ × ℚ)
  outVertices : List ℚ
deriving DecidableEq

/-- Maximal runs of non-whitespace characters; `acc` holds the (reversed)
characters of the token currently being read. -/
def splitTokens : List Char → List Char → List String
  | [], acc => if acc.isEmpty then [] else [String.mk acc.reverse]
  | c :: cs, acc =>
    if c.isWhitespace then
      if acc.isEmpty then splitTokens cs []
      else String.mk acc.reverse :: splitTokens cs []
    else splitTokens cs (c :: acc)

/-- Whitespace token extraction, as `istringstream` performs it. -/
def tokenize (line : String) : List String :=
  splitTokens line.toList []

/-- One iteration of the `while (getline(file, line))` loop: dispatch on the
first token (`v`, `vt`, `f`); blank and unrecognized lines are ignored. -/
def processLine (st : ObjState) (line : String) : Option ObjState :=
  match tokenize line with
  | [] => some st
  | pfx :: rest =>
    if pfx = "v" then
      some { st with positions := st.positions ++ [readFloat3 rest] }
    else if pfx = "vt" then
      some { st with texcoords := st.texcoords ++ [readFloat2 rest] }
    else if pfx = "f" then
      match processFace st.positions st.texcoords st.outVertices rest with
      | some out => some { st with outVertices := out }
      | none => none
    else some st

/-- The whole line loop. -/
def processLines : ObjState → List String → Option ObjState
  | st, [] => some st
  | st, l :: ls =>
    match processLine st l with
    | some st' => processLines st' ls
    | none => none

/-- Source function `LoadOBJ(filename, outVertices)`.  The input is `none` when the file
cannot be opened (the function then returns `false` with the caller's stream,
initially empty, untouched); otherwise the lines are processed and the result
is `false` exactly when the stream came out empty.  The outer `Option` is
`none` when an uncaught parse exception escapes. -/
def LoadOBJ : Option (List String) → Option (Bool × List ℚ)
  | none => some (false, [])
  | some lines =>
    match processLines ⟨[], [], []⟩ lines with
    | some st => some (if st.outVertices = [] then false else true, st.outVertices)
    | none => none

/-- The vertex count the loader logs on success: `outVertices.size() / 5`. -/
def objVertexCount (out : List ℚ) : ℕ := out.length / 5

/-! ## Spec-side helpers used to state the loader claims -/

/-- The five reals `pushVertex` appends for an in-range reference (and `[]`
for a skipped one); `pushVertex` is append by this block. -/
def vertexData (positions : List (ℚ × ℚ × ℚ)) (texcoords : List (ℚ × ℚ))
    (v : ℤ × ℤ) : List ℚ :=
  if v.1 ≤ 0 ∨ (positions.length : ℤ) < v.1 then []
  else
    let p := positions.getD (v.1.toNat - 1) (0, 0, 0)
    let t :=
      if 0 < v.2 ∧ v.2 ≤ (texcoords.length : ℤ) then
        texcoords.getD (v.2.toNat - 1) (0, 0)
      else (0, 0)
    [p.1, p.2.1, p.2.2, t.1, t.2]

/-- Parse every face token, failing if any single parse fails. -/
def parseAllTokens : List String → Option (List (ℤ × ℤ))
  | [] => some []
  | t :: ts =>
    match parseIndex t, parseAllTokens ts with
    | some p, some ps => some (p :: ps)
    | _, _ => none

/-- The spec's fan triangulation around `v0`: triangles
`(v0, v1, v2), (v0, v2, v3), …` in order.  `prev` is the second vertex of the
next triangle to emit. -/
def fanTriangles (v0 prev : ℤ × ℤ) : List (ℤ × ℤ) → List ((ℤ × ℤ) × (ℤ × ℤ) × (ℤ × ℤ))
  | [] => []
  | b :: rest => (v0, prev, b) :: fanTriangles v0 b rest

/-- The stream block one triangle contributes. -/
def emitTriangle (positions : List (ℚ × ℚ × ℚ)) (texcoords : List (ℚ × ℚ))
    (t : (ℤ × ℤ) × (ℤ × ℤ) × (ℤ × ℤ)) : List ℚ :=
  vertexData positions texcoords t.1 ++ vertexData positions texcoords t.2.1 ++
    vertexData positions texcoords t.2.2

/-- The stream blocks of a list of triangles, concatenated in order. -/
def emitTriangles (positions : List (ℚ × ℚ × ℚ)) (texcoords : List (ℚ × ℚ)) :
    List ((ℤ × ℤ) × (ℤ × ℤ) × (ℤ × ℤ)) → List ℚ
  | [] => []
  | t :: ts => emitTriangle positions texcoords t ++ emitTriangles positions texcoords ts

/-! ## Component lemmas for the algebra -/

@[simp] theorem Vec3.add_x (a b : Vec3) : (a + b).x = a.x + b.x := rfl

@[simp] theorem Vec3.add_y (a b : Vec3) : (a + b).y = a.y + b.y := rfl

@[simp] theorem Vec3.add_z (a b : Vec3) : (a + b).z = a.z + b.z := rfl

@[simp] theorem Vec3.sub_x (a b : Vec3) : (a - b).x = a.x - b.x := rfl

@[simp] theorem Vec3.sub_y (a b : Vec3) : (a - b).y = a.y - b.y := rfl

@[simp] theorem Vec3.sub_z (a b : Vec3) : (a - b).z = a.z - b.z := rfl

@[simp] theorem Vec3.smul_x (a : Vec3) (s : ℝ) : (a * s).x = a.x * s := rfl

@[simp] theorem Vec3.smul_y (a : Vec3) (s : ℝ) : (a * s).y = a.y * s := rfl

@[simp] theorem Vec3.smul_z (a : Vec3) (s : ℝ) : (a * s).z = a.z * s := rfl

/-- Scaling a vector scales its length by the absolute value of the factor. -/
theorem length_smul (v : Vec3) (s : ℝ) : Length (v * s) = |s| * Length v := by
  have h : Dot (v * s) (v * s) = s ^ 2 * Dot v v := by
    simp only [Dot, Vec3.smul_x, Vec3.smul_y, Vec3.smul_z]
    ring
  rw [Length, h, Real.sqrt_mul (sq_nonneg s), Real.sqrt_sq_eq_abs, Length]

/-- Claim C4: `Normalize` returns near-zero vectors unchanged, and otherwise
scales by the reciprocal length, producing a unit-length vector. -/
theorem normalize_c4 (v : Vec3) :
    (Length v ≤ 1 / 1000000 → Normalize v = v) ∧
    (1 / 1000000 < Length v →
      Normalize v = v * (1 / Length v) ∧ Length (Normalize v) = 1) := by
  constructor
  · intro h
    unfold Normalize
    rw [if_pos h]
  · intro h
    have hnle : ¬ Length v ≤ 1 / 1000000 := not_le.mpr h
    have hpos : 0 < Length v := lt_trans (by norm_num) h
    have hdef : Normalize v = v * (1 / Length v) := by
      unfold Normalize
      rw [if_neg hnle]
    refine ⟨hdef, ?_⟩
    rw [hdef, length_smul, abs_of_pos (by positivity), one_div,
      inv_mul_cancel₀ hpos.ne']

/-- Witness for C4 at `v = (3, 4, 0)`, whose length is 5. -/
theorem normalize_c4_witness :
    (1 / 1000000 : ℝ) < Length ⟨3, 4, 0⟩ ∧ Length (Normalize ⟨3, 4, 0⟩) = 1 := by
  have h25 : Dot ⟨3, 4, 0⟩ ⟨3, 4, 0⟩ = 25 := by norm_num [Dot]
  have h5 : Length ⟨3, 4, 0⟩ = 5 := by
    rw [Length, h25, show (25 : ℝ) = 5 ^ 2 by norm_num,
      Real.sqrt_sq (by norm_num : (0 : ℝ) ≤ 5)]
  have hlt : (1 / 1000000 : ℝ) < Length ⟨3, 4, 0⟩ := by rw [h5]; norm_num
  exact ⟨hlt, ((normalize_c4 ⟨3, 4, 0⟩).2 hlt).2⟩

/-! ## Simulator claims -/

/-- Claim C1: the advance step adds `orbitSpeed*dt` and `selfSpeed*dt` to the
angles with no clamping or wraparound, and the model matrix equals
`Translation(position) * RotationY(selfAngle) * Scale(scale,scale,scale)`
with the position the spec derives: `(cos θ · r, 0, sin θ · r)` for `r > 0`
and the origin for `r = 0`, regardless of the orbit angle. -/
theorem advance_and_world_transform_c1 (p : Planet) (dt : ℝ) :
    (updatePlanet p dt).orbitAngle = p.orbitAngle + p.orbitSpeed * dt ∧
    (updatePlanet p dt).selfAngle = p.selfAngle + p.selfSpeed * dt ∧
    (0 ≤ p.orbitRadius →
      modelMatrix p =
        Mat4.Translation (specPosition p).1 (specPosition p).2.1
            (specPosition p).2.2 *
          Mat4.RotationY p.selfAngle * Mat4.Scale p.scale p.scale p.scale) := by
  refine ⟨rfl, rfl, fun hr => ?_⟩
  rcases eq_or_lt_of_le hr with h0 | hpos
  · simp [modelMatrix, specPosition, ← h0]
  · simp [modelMatrix, specPosition, hpos, hpos.ne']

/-- Witness for C1 at a satellite with radius 2 and unit speeds. -/
theorem advance_and_world_transform_c1_witness :
    (updatePlanet ⟨2, 1, 1, 1, 0, 0⟩ 1).orbitAngle = 0 + 1 * 1 ∧
    modelMatrix ⟨2, 1, 1, 1, 0, 0⟩ =
      Mat4.Translation (specPosition ⟨2, 1, 1, 1, 0, 0⟩).1
          (specPosition ⟨2, 1, 1, 1, 0, 0⟩).2.1
          (specPosition ⟨2, 1, 1, 1, 0, 0⟩).2.2 *
        Mat4.RotationY 0 * Mat4.Scale 1 1 1 :=
  ⟨(advance_and_world_transform_c1 ⟨2, 1, 1, 1, 0, 0⟩ 1).1,
   (advance_and_world_transform_c1 ⟨2, 1, 1, 1, 0, 0⟩ 1).2.2 (by norm_num)⟩

/-- Claim C9: the advance step is deterministic — equal initial states and
equal `dt` sequences produce equal traces of
(orbitAngle, selfAngle, world transform). -/
theorem simulator_deterministic_c9 (p q : Planet) (dts1 dts2 : List ℝ)
    (hpq : p = q) (hdts : dts1 = dts2) : runTrace p dts1 = runTrace q dts2 := by
  subst hpq
  subst hdts
  rfl

/-- Witness for C9 on the central body of the scene. -/
theorem simulator_deterministic_c9_witness :
    runTrace ⟨0, 0, 1 / 5, 4, 0, 0⟩ [1] = runTrace ⟨0, 0, 1 / 5, 4, 0, 0⟩ [1] :=
  simulator_deterministic_c9 _ _ _ _ rfl rfl

/-- Claim C10: the advance step mutates only the two angles — radius, speeds
and scale are unchanged — and the planet collection keeps its length and
order (the i-th output is the update of the i-th input). -/
theorem advance_frame_effect_c10 :
    (∀ (p : Planet) (dt : ℝ),
      (updatePlanet p dt).orbitRadius = p.orbitRadius ∧
      (updatePlanet p dt).orbitSpeed = p.orbitSpeed ∧
      (updatePlanet p dt).selfSpeed = p.selfSpeed ∧
      (updatePlanet p dt).scale = p.scale) ∧
    (∀ (ps : List Planet) (dt : ℝ), (advancePlanets ps dt).length = ps.length) ∧
    (∀ (ps : List Planet) (dt : ℝ) (i : ℕ),
      (advancePlanets ps dt)[i]? = (ps[i]?).map (fun p => updatePlanet p dt)) := by
  refine ⟨fun p dt => ⟨rfl, rfl, rfl, rfl⟩, fun ps dt => ?_, fun ps dt i => ?_⟩
  · simp [advancePlanets]
  · simp [advancePlanets]

/-! ## Camera pitch clamp -/

/-- One `pitchStep` always lands in `[-89, 89]`, whatever the inputs. -/
theorem pitchStep_bounds (p : ℚ) (u d : Bool) (dt : ℚ) :
    -89 ≤ pitchStep p u d dt ∧ pitchStep p u d dt ≤ 89 := by
  simp only [pitchStep]
  split_ifs <;> constructor <;> linarith

/-- Claim C7: starting from a pitch in `[-89, 89]`, any sequence of held
rotation keys and positive frame times keeps the pitch in `[-89, 89]`. -/
theorem pitch_clamp_c7 (p0 : ℚ) (frames : List (Bool × Bool × ℚ))
    (hlo : -89 ≤ p0) (hhi : p0 ≤ 89) (hdt : ∀ f ∈ frames, 0 < f.2.2) :
    -89 ≤ pitchRun p0 frames ∧ pitchRun p0 frames ≤ 89 := by
  induction frames generalizing p0 with
  | nil => exact ⟨hlo, hhi⟩
  | cons f fs ih =>
    have h := pitchStep_bounds p0 f.1 f.2.1 f.2.2
    exact ih (pitchStep p0 f.1 f.2.1 f.2.2) h.1 h.2
      (fun g hg => hdt g (List.mem_cons_of_mem f hg))

/-- Witness for C7: one frame of upward rotation from pitch 0. -/
theorem pitch_clamp_c7_witness :
    -89 ≤ pitchRun 0 [(true, false, 1)] ∧ pitchRun 0 [(true, false, 1)] ≤ 89 :=
  pitch_clamp_c7 0 [(true, false, 1)] (by norm_num) (by norm_num) (by decide)

/-! ## Look-at view matrix -/

/-- Claim C8: for a non-degenerate basis, the look-at matrix built from
`(eye, eye + forward, up)` maps the homogeneous point `(eye, 1)` to the
camera-space origin `(0, 0, 0, 1)`: the negative-dot-product translation
entries cancel the basis-projected eye position. -/
theorem lookat_maps_eye_to_origin_c8 (eye forward up : Vec3)
    (hf : forward ≠ ⟨0, 0, 0⟩) (hcross : Cross forward up ≠ ⟨0, 0, 0⟩) :
    (Mat4.LookAt eye (eye + forward) up).mulVec ![eye.x, eye.y, eye.z, 1]
      = ![0, 0, 0, 1] := by
  funext i
  fin_cases i <;>
    simp [Mat4.LookAt, Matrix.mulVec, Matrix.dotProduct, Fin.sum_univ_four,
      Dot] <;>
    ring

/-- Witness for C8: eye `(1,2,3)` looking along `-z` with the world up. -/
theorem lookat_maps_eye_to_origin_c8_witness :
    (Mat4.LookAt ⟨1, 2, 3⟩ (⟨1, 2, 3⟩ + ⟨0, 0, -1⟩) ⟨0, 1, 0⟩).mulVec
        ![1, 2, 3, 1] = ![0, 0, 0, 1] :=
  lookat_maps_eye_to_origin_c8 ⟨1, 2, 3⟩ ⟨0, 0, -1⟩ ⟨0, 1, 0⟩
    (by norm_num [Vec3.mk.injEq]) (by norm_num [Cross, Vec3.mk.injEq])

/-! ## Loader lemmas -/

/-- Lemma: `pushVertex` is appending the `vertexData` block. -/
theorem pushVertex_eq_append (pos : List (ℚ × ℚ × ℚ)) (tex : List (ℚ × ℚ))
    (out : List ℚ) (v : ℤ × ℤ) :
    pushVertex pos tex out v = out ++ vertexData pos tex v := by
  simp only [pushVertex, vertexData]
  split_ifs <;> simp

/-- Inversion for `parseAllTokens` on a cons cell. -/
theorem parseAllTokens_cons {t : String} {ts : List String}
    {ps : List (ℤ × ℤ)} (h : parseAllTokens (t :: ts) = some ps) :
    ∃ p qs, parseIndex t = some p ∧ parseAllTokens ts = some qs ∧ ps = p :: qs := by
  simp only [parseAllTokens] at h
  cases hp : parseIndex t with
  | none => rw [hp] at h; simp at h
  | some p =>
    cases hq : parseAllTokens ts with
    | none => rw [hp, hq] at h; simp at h
    | some qs =>
      rw [hp, hq] at h
      simp only [Option.some.injEq] at h
      exact ⟨p, qs, rfl, rfl, h.symm⟩

/-- The fan loop, when every token parses, appends exactly the stream blocks
of the fan triangles around `v0`. -/
theorem fanLoop_eq (pos : List (ℚ × ℚ × ℚ)) (tex : List (ℚ × ℚ)) (v0 : ℤ × ℤ) :
    ∀ (ts : List String) (prev : String) (pprev : ℤ × ℤ) (ps : List (ℤ × ℤ))
      (out : List ℚ),
      parseIndex prev = some pprev → parseAllTokens ts = some ps →
      fanLoop pos tex v0 prev out ts
        = some (out ++ emitTriangles pos tex (fanTriangles v0 pprev ps)) := by
  intro ts
  induction ts with
  | nil =>
    intro prev pprev ps out hprev hps
    simp only [parseAllTokens, Option.some.injEq] at hps
    subst hps
    simp [fanLoop, fanTriangles, emitTriangles]
  | cons t ts ih =>
    intro prev pprev ps out hprev hps
    obtain ⟨p, qs, hpt, hqs, rfl⟩ := parseAllTokens_cons hps
    simp only [fanLoop]
    rw [hprev, hpt]
    dsimp only
    rw [ih t p qs _ hpt hqs]
    simp [fanTriangles, emitTriangles, emitTriangle, pushVertex_eq_append,
      List.append_assoc]

/-- The length of the five-real block is 0 (skipped) or 5 (emitted). -/
theorem vertexData_length (pos : List (ℚ × ℚ × ℚ)) (tex : List (ℚ × ℚ))
    (v : ℤ × ℤ) :
    (vertexData pos tex v).length = 0 ∨ (vertexData pos tex v).length = 5 := by
  simp only [vertexData]
  split_ifs <;> simp

/-- Lemma: `pushVertex` preserves the stream length modulo 5. -/
theorem pushVertex_length_mod (pos : List (ℚ × ℚ × ℚ)) (tex : List (ℚ × ℚ))
    (out : List ℚ) (v : ℤ × ℤ) :
    (pushVertex pos tex out v).length % 5 = out.length % 5 := by
  rw [pushVertex_eq_append, List.length_append]
  rcases vertexData_length pos tex v with h | h <;> rw [h] <;> omega

/-- The fan loop preserves the stream length modulo 5. -/
theorem fanLoop_length_mod (pos : List (ℚ × ℚ × ℚ)) (tex : List (ℚ × ℚ))
    (v0 : ℤ × ℤ) :
    ∀ (ts : List String) (prev : String) (out out' : List ℚ),
      fanLoop pos tex v0 prev out ts = some out' →
      out'.length % 5 = out.length % 5 := by
  intro ts
  induction ts with
  | nil =>
    intro prev out out' h
    simp only [fanLoop, Option.some.injEq] at h
    rw [← h]
  | cons t ts ih =>
    intro prev out out' h
    simp only [fanLoop] at h
    cases h1 : parseIndex prev <;> rw [h1] at h
    · simp at h
    · cases h2 : parseIndex t <;> rw [h2] at h
      · simp at h
      · rw [ih t _ _ h, pushVertex_length_mod, pushVertex_length_mod,
          pushVertex_length_mod]

/-- Lemma: `processFace` preserves the stream length modulo 5. -/
theorem processFace_length_mod (pos : List (ℚ × ℚ × ℚ)) (tex : List (ℚ × ℚ))
    (out : List ℚ) (tokens : List String) (out' : List ℚ)
    (h : processFace pos tex out tokens = some out') :
    out'.length % 5 = out.length % 5 := by
  rcases tokens with _ | ⟨t0, _ | ⟨t1, _ | ⟨t2, rest⟩⟩⟩
  · simp only [processFace, Option.some.injEq] at h; rw [← h]
  · simp only [processFace, Option.some.injEq] at h; rw [← h]
  · simp only [processFace, Option.some.injEq] at h; rw [← h]
  · simp only [processFace] at h
    cases h0 : parseIndex t0 <;> rw [h0] at h
    · simp at h
    · exact fanLoop_length_mod pos tex _ _ _ _ _ h

/-- Lemma: `processLine` preserves the stream length modulo 5. -/
theorem processLine_length_mod (st st' : ObjState) (line : String)
    (h : processLine st line = some st') :
    st'.outVertices.length % 5 = st.outVertices.length % 5 := by
  unfold processLine at h
  cases htok : tokenize line with
  | nil => rw [htok] at h; simp only [Option.some.injEq] at h; rw [← h]
  | cons pfx rest =>
    rw [htok] at h
    dsimp only at h
    split_ifs at h
    · simp only [Option.some.injEq] at h; rw [← h]
    · simp only [Option.some.injEq] at h; rw [← h]
    · cases hf : processFace st.positions st.texcoords st.outVertices rest <;>
        rw [hf] at h
      · simp at h
      · simp only [Option.some.injEq] at h
        rw [← h]
        exact processFace_length_mod _ _ _ _ _ hf
    · simp only [Option.some.injEq] at h; rw [← h]

/-- Lemma: `processLines` preserves the stream length modulo 5. -/
theorem processLines_length_mod :
    ∀ (lines : List String) (st st' : ObjState),
      processLines st lines = some st' →
      st'.outVertices.length % 5 = st.outVertices.length % 5 := by
  intro lines
  induction lines with
  | nil =>
    intro st st' h
    simp only [processLines, Option.some.injEq] at h
    rw [← h]
  | cons l ls ih =>
    intro st st' h
    simp only [processLines] at h
    cases h1 : processLine st l <;> rw [h1] at h
    · simp at h
    · rw [ih _ _ h, processLine_length_mod _ _ _ h1]

/-- Every component of a fan triangle is the centre, the seed, or a member
of the remaining parsed list. -/
theorem fanTriangles_mem (v0 : ℤ × ℤ) :
    ∀ (l : List (ℤ × ℤ)) (prev : ℤ × ℤ) (t : (ℤ × ℤ) × (ℤ × ℤ) × (ℤ × ℤ)),
      t ∈ fanTriangles v0 prev l →
      t.1 = v0 ∧ (t.2.1 = prev ∨ t.2.1 ∈ l) ∧ t.2.2 ∈ l := by
  intro l
  induction l with
  | nil => intro prev t ht; simp [fanTriangles] at ht
  | cons b rest ih =>
    intro prev t ht
    simp only [fanTriangles, List.mem_cons] at ht
    rcases ht with rfl | ht
    · exact ⟨rfl, Or.inl rfl, List.mem_cons_self _ _⟩
    · obtain ⟨h1, h2, h3⟩ := ih b t ht
      exact ⟨h1, by rcases h2 with h | h <;> simp [h],
        List.mem_cons_of_mem _ h3⟩

/-- An in-range position reference always contributes exactly five reals. -/
theorem vertexData_valid_length (pos : List (ℚ × ℚ × ℚ)) (tex : List (ℚ × ℚ))
    (v : ℤ × ℤ) (h1 : 0 < v.1) (h2 : v.1 ≤ (pos.length : ℤ)) :
    (vertexData pos tex v).length = 5 := by
  have hc : ¬ (v.1 ≤ 0 ∨ (pos.length : ℤ) < v.1) := by omega
  simp only [vertexData]
  rw [if_neg hc]
  simp

/-- Concatenated triangle blocks of all-in-range triangles have length a
multiple of 15. -/
theorem emitTriangles_valid_length (pos : List (ℚ × ℚ × ℚ))
    (tex : List (ℚ × ℚ)) :
    ∀ (L : List ((ℤ × ℤ) × (ℤ × ℤ) × (ℤ × ℤ))),
      (∀ t ∈ L, (emitTriangle pos tex t).length = 15) →
      (emitTriangles pos tex L).length = 15 * L.length := by
  intro L
  induction L with
  | nil => intro _; simp [emitTriangles]
  | cons t ts ih =>
    intro h
    simp only [emitTriangles, List.length_append, List.length_cons]
    rw [h t (List.mem_cons_self _ _), ih (fun u hu => h u (List.mem_cons_of_mem _ hu))]
    ring

/-! ## Loader claims -/

/-- Claim C2: a face with `n ≥ 3` vertex-reference tokens is fan-triangulated
around its first vertex, appending the triangles
`(v0,v1,v2), (v0,v2,v3), …, (v0,v(n-2),v(n-1))` in that order; a face with
fewer than 3 tokens is skipped; and the quad `f 1 2 3 4` over four declared
positions emits exactly two triangles (six vertices, thirty reals) whose
second triangle reuses the quad's first and third declared positions. -/
theorem fan_triangulation_c2 :
    (∀ (pos : List (ℚ × ℚ × ℚ)) (tex : List (ℚ × ℚ)) (out : List ℚ)
        (tokens : List String), tokens.length < 3 →
        processFace pos tex out tokens = some out) ∧
    (∀ (pos : List (ℚ × ℚ × ℚ)) (tex : List (ℚ × ℚ)) (out : List ℚ)
        (t0 t1 t2 : String) (rest : List String) (p0 p1 : ℤ × ℤ)
        (prest : List (ℤ × ℤ)),
        parseAllTokens (t0 :: t1 :: t2 :: rest) = some (p0 :: p1 :: prest) →
        processFace pos tex out (t0 :: t1 :: t2 :: rest)
          = some (out ++ emitTriangles pos tex (fanTriangles p0 p1 prest))) ∧
    LoadOBJ (some ["v 0 0 0", "v 1 0 0", "v 1 1 0", "v 0 1 0", "f 1 2 3 4"])
      = some (true,
          [0, 0, 0, 0, 0,  1, 0, 0, 0, 0,  1, 1, 0, 0, 0,
           0, 0, 0, 0, 0,  1, 1, 0, 0, 0,  0, 1, 0, 0, 0]) := by
  refine ⟨?_, ?_, by decide⟩
  · intro pos tex out tokens h
    rcases tokens with _ | ⟨t0, _ | ⟨t1, _ | ⟨t2, rest⟩⟩⟩
    · rfl
    · rfl
    · rfl
    · simp only [List.length_cons] at h
      omega
  · intro pos tex out t0 t1 t2 rest p0 p1 prest h
    obtain ⟨q0, qs0, h0, hr0, he0⟩ := parseAllTokens_cons h
    injection he0 with he0a he0b
    subst he0a
    rw [← he0b] at hr0
    obtain ⟨q1, qs1, h1, hr1, he1⟩ := parseAllTokens_cons hr0
    injection he1 with he1a he1b
    subst he1a
    rw [← he1b] at hr1
    simp only [processFace]
    rw [h0]
    dsimp only
    exact fanLoop_eq pos tex p0 (t2 :: rest) t1 p1 prest out h1 hr1

/-- Witness for C2: the quad's face record, all four tokens parsed. -/
theorem fan_triangulation_c2_witness :
    processFace [((0 : ℚ), (0 : ℚ), (0 : ℚ)), (1, 0, 0), (1, 1, 0), (0, 1, 0)]
        [] [] ["1", "2", "3", "4"]
      = some ([] ++
          emitTriangles [((0 : ℚ), (0 : ℚ), (0 : ℚ)), (1, 0, 0), (1, 1, 0), (0, 1, 0)]
            [] (fanTriangles (1, 0) (2, 0) [(3, 0), (4, 0)])) :=
  fan_triangulation_c2.2.1 _ _ _ "1" "2" "3" ["4"] (1, 0) (2, 0)
    [(3, 0), (4, 0)] (by decide)

/-- Counterexample to Claim C3 as stated: the token `1/5` has a valid
position index but texture index 5 beyond an empty texcoord list, yet the
loader does NOT skip the vertex — it appends it with UV `(0,0)`. -/
theorem skip_policy_c3_counterexample :
    pushVertex [((1 : ℚ), 2, 3)] [] [] (1, 5) = [1, 2, 3, 0, 0] ∧
    ([1, 2, 3, 0, 0] : List ℚ) ≠ [] := by decide

/-- Claim C3 (amended): a reference whose POSITION index is out of range is
skipped entirely (nothing appended, no default substituted); a reference with
an in-range position index and a missing or out-of-range texture index is
still appended, with UV `(0,0)`; a face whose tokens all parse never fails
the whole load; and a token without a `/` parses with texture index 0. -/
theorem skip_policy_c3 :
    (∀ (pos : List (ℚ × ℚ × ℚ)) (tex : List (ℚ × ℚ)) (out : List ℚ)
        (v : ℤ × ℤ), (v.1 ≤ 0 ∨ (pos.length : ℤ) < v.1) →
        pushVertex pos tex out v = out) ∧
    (∀ (pos : List (ℚ × ℚ × ℚ)) (tex : List (ℚ × ℚ)) (out : List ℚ)
        (v : ℤ × ℤ) (px py pz : ℚ), 0 < v.1 → v.1 ≤ (pos.length : ℤ) →
        (v.2 ≤ 0 ∨ (tex.length : ℤ) < v.2) →
        pos.getD (v.1.toNat - 1) (0, 0, 0) = (px, py, pz) →
        pushVertex pos tex out v = out ++ [px, py, pz, 0, 0]) ∧
    (∀ (pos : List (ℚ × ℚ × ℚ)) (tex : List (ℚ × ℚ)) (out : List ℚ)
        (tokens : List String) (ps : List (ℤ × ℤ)),
        parseAllTokens tokens = some ps →
        ∃ out', processFace pos tex out tokens = some out') ∧
    (∀ (s : String) (p : ℤ × ℤ), '/' ∉ s.toList → parseIndex s = some p →
        p.2 = 0) := by
  refine ⟨?_, ?_, ?_, ?_⟩
  · intro pos tex out v h
    simp only [pushVertex]
    rw [if_pos h]
  · intro pos tex out v px py pz h1 h2 h3 hget
    have hc1 : ¬ (v.1 ≤ 0 ∨ (pos.length : ℤ) < v.1) := by omega
    have hc2 : ¬ (0 < v.2 ∧ v.2 ≤ (tex.length : ℤ)) := by omega
    simp only [pushVertex]
    rw [if_neg hc1, if_neg hc2, hget]
  · intro pos tex out tokens ps hps
    rcases tokens with _ | ⟨t0, _ | ⟨t1, _ | ⟨t2, rest⟩⟩⟩
    · exact ⟨out, rfl⟩
    · exact ⟨out, rfl⟩
    · exact ⟨out, rfl⟩
    · obtain ⟨q0, qs0, h0, hr0, he0⟩ := parseAllTokens_cons hps
      obtain ⟨q1, qs1, h1, hr1, he1⟩ := parseAllTokens_cons hr0
      refine ⟨out ++ emitTriangles pos tex (fanTriangles q0 q1 qs1), ?_⟩
      simp only [processFace]
      rw [h0]
      dsimp only
      exact fanLoop_eq pos tex q0 (t2 :: rest) t1 q1 qs1 out h1 hr1
  · intro s p hs hp
    simp only [parseIndex] at hp
    have hall : ∀ c ∈ s.toList, (fun c => decide (c ≠ '/')) c = true := by
      intro c hc
      simp only [decide_eq_true_eq]
      exact ne_of_mem_of_not_mem hc hs
    have htw : s.toList.takeWhile (fun c => decide (c ≠ '/')) = s.toList :=
      List.takeWhile_eq_self_iff.mpr hall
    rw [htw] at hp
    rw [if_pos rfl] at hp
    cases hsi : stoiChars s.toList <;> rw [hsi] at hp
    · simp at hp
    · simp only [Option.map_some', Option.some.injEq] at hp
      rw [← hp]

/-- Witness for C3: a reference with valid position index 1 and missing
texture index (0) is appended with UV `(0,0)`. -/
theorem skip_policy_c3_witness :
    pushVertex [((1 : ℚ), 2, 3)] [] [] (1, 0) = [] ++ [1, 2, 3, 0, 0] :=
  skip_policy_c3.2.1 [((1 : ℚ), 2, 3)] [] [] (1, 0) 1 2 3 (by decide)
    (by decide) (by decide) (by decide)

/-- Claim C5: the loader reports failure exactly when the file cannot be
opened or parsing emitted zero vertices, leaving the stream empty in those
cases; otherwise it reports success and the logged vertex count is the
stream length divided by 5. -/
theorem loader_failure_c5 (file : Option (List String)) (ok : Bool)
    (out : List ℚ) (h : LoadOBJ file = some (ok, out)) :
    ((ok = false) ↔ (file = none ∨ out = [])) ∧ (ok = false → out = []) ∧
    (ok = true → objVertexCount out = out.length / 5) := by
  cases file with
  | none =>
    simp only [LoadOBJ, Option.some.injEq, Prod.mk.injEq] at h
    obtain ⟨hok, hout⟩ := h
    rw [← hok, ← hout]
    simp [objVertexCount]
  | some lines =>
    simp only [LoadOBJ] at h
    cases hst : processLines ⟨[], [], []⟩ lines <;> rw [hst] at h
    · simp at h
    · rename_i st
      simp only [Option.some.injEq, Prod.mk.injEq] at h
      obtain ⟨hok, hout⟩ := h
      by_cases he : st.outVertices = []
      · rw [he] at hok hout
        simp only [if_pos rfl] at hok
        rw [← hok, ← hout]
        simp [objVertexCount]
      · rw [if_neg he] at hok
        rw [← hok, ← hout]
        refine ⟨?_, by simp, fun _ => rfl⟩
        constructor
        · intro hfalse
          exact absurd hfalse (by simp)
        · intro hor
          rcases hor with h1 | h1
          · exact absurd h1 (by simp)
          · exact absurd h1 he

/-- Witness for C5: a file with a `vt` record but no faces parses to an
empty stream and reports failure. -/
theorem loader_failure_c5_witness :
    ((false = false) ↔
      ((some ["vt 0 0"] : Option (List String)) = none ∨ ([] : List ℚ) = [])) ∧
    (false = false → ([] : List ℚ) = []) ∧
    (false = true → objVertexCount [] = ([] : List ℚ).length / 5) :=
  loader_failure_c5 (some ["vt 0 0"]) false [] (by decide)

/-- Counterexample to Claim C6 as stated: a face referencing a position
beyond the declared count loses one fan vertex, so a successful load can
emit 2 vertices — not a multiple of 3, no whole-triangle grouping. -/
theorem stream_shape_c6_counterexample :
    LoadOBJ (some ["v 0 0 0", "v 1 0 0", "f 1 2 3"])
      = some (true, [0, 0, 0, 0, 0, 1, 0, 0, 0, 0]) ∧
    ¬ (([0, 0, 0, 0, 0, 1, 0, 0, 0, 0] : List ℚ).length / 5) % 3 = 0 := by
  decide

/-- Claim C6 (amended): every successful load yields a stream with exactly
5 reals per vertex (length divisible by 5); a face all of whose parsed
references have in-range position indices contributes whole triangles
(a multiple of 15 reals), while faces with skipped references may leave
partial triangles. -/
theorem stream_shape_c6 :
    (∀ (file : Option (List String)) (ok : Bool) (out : List ℚ),
        LoadOBJ file = some (ok, out) → out.length % 5 = 0) ∧
    (∀ (pos : List (ℚ × ℚ × ℚ)) (tex : List (ℚ × ℚ)) (out : List ℚ)
        (tokens : List String) (ps : List (ℤ × ℤ)) (out' : List ℚ),
        parseAllTokens tokens = some ps →
        (∀ p ∈ ps, 0 < p.1 ∧ p.1 ≤ (pos.length : ℤ)) →
        processFace pos tex out tokens = some out' →
        ∃ k, out'.length = out.length + 15 * k) := by
  constructor
  · intro file ok out h
    cases file with
    | none =>
      simp only [LoadOBJ, Option.some.injEq, Prod.mk.injEq] at h
      rw [← h.2]
      rfl
    | some lines =>
      simp only [LoadOBJ] at h
      cases hst : processLines ⟨[], [], []⟩ lines <;> rw [hst] at h
      · simp at h
      · rename_i st
        simp only [Option.some.injEq, Prod.mk.injEq] at h
        rw [← h.2]
        have hmod := processLines_length_mod lines ⟨[], [], []⟩ st hst
        simpa using hmod
  · intro pos tex out tokens ps out' hps hvalid hface
    rcases tokens with _ | ⟨t0, _ | ⟨t1, _ | ⟨t2, rest⟩⟩⟩
    · simp only [processFace, Option.some.injEq] at hface
      exact ⟨0, by rw [← hface]; ring⟩
    · simp only [processFace, Option.some.injEq] at hface
      exact ⟨0, by rw [← hface]; ring⟩
    · simp only [processFace, Option.some.injEq] at hface
      exact ⟨0, by rw [← hface]; ring⟩
    · obtain ⟨q0, qs0, h0, hr0, he0⟩ := parseAllTokens_cons hps
      subst he0
      obtain ⟨q1, qs1, h1, hr1, he1⟩ := parseAllTokens_cons hr0
      subst he1
      have hfl := fanLoop_eq pos tex q0 (t2 :: rest) t1 q1 qs1 out h1 hr1
      simp only [processFace] at hface
      rw [h0] at hface
      dsimp only at hface
      rw [hfl] at hface
      simp only [Option.some.injEq] at hface
      refine ⟨(fanTriangles q0 q1 qs1).length, ?_⟩
      rw [← hface, List.length_append, emitTriangles_valid_length]
      intro t ht
      obtain ⟨hta, htb, htc⟩ := fanTriangles_mem q0 qs1 q1 t ht
      have hq0 := hvalid q0 (by simp)
      have hq1 := hvalid q1 (by simp)
      have hqs : ∀ u ∈ qs1, 0 < u.1 ∧ u.1 ≤ (pos.length : ℤ) :=
        fun u hu => hvalid u (by simp [hu])
      have hb : 0 < t.2.1.1 ∧ t.2.1.1 ≤ (pos.length : ℤ) := by
        rcases htb with h | h
        · rw [h]; exact hq1
        · exact hqs _ h
      have hc : 0 < t.2.2.1 ∧ t.2.2.1 ≤ (pos.length : ℤ) := hqs _ htc
      simp only [emitTriangle, List.length_append]
      rw [vertexData_valid_length pos tex t.1 (by rw [hta]; exact hq0.1)
          (by rw [hta]; exact hq0.2),
        vertexData_valid_length pos tex t.2.1 hb.1 hb.2,
        vertexData_valid_length pos tex t.2.2 hc.1 hc.2]

/-- Witness for C6: a successful load of one whole triangle, 15 reals. -/
theorem stream_shape_c6_witness :
    ([0, 0, 0, 0, 0, 0, 0, 0, 0, 0, 0, 0, 0, 0, 0] : List ℚ).length % 5 = 0 :=
  stream_shape_c6.1 (some ["v 0 0 0", "f 1 1 1"]) true
    [0, 0, 0, 0, 0, 0, 0, 0, 0, 0, 0, 0, 0, 0, 0] (by decide)

end Lab13
